import Mathlib

/-!
Shallow embedding of the candidate pipeline of `hr_passive_cv`
(files `src/agent.py` and `src/app.py`).

The pipeline's external services are modelled as oracles:

* the search oracle maps a query string to `Option (List SearchItem)`,
  where `none` models an exception raised by the search call (caught by
  the surrounding `try`/`except` in the source);
* the scoring oracle maps a snippet to `Option ScoreResponse`, where
  `none` models an exception or an unparsable response inside
  `ai_score_candidate` and a `some` value is the parsed JSON object
  (each key optional, mirroring `dict.get` access in the source);
* the strategy oracle is an `Option StrategyJson`: `none` models any
  exception or JSON parse failure inside `generate_search_strategy`,
  and a `some` value is the parsed JSON object with optional keys,
  mirroring `strategy.get('role_title', ...)` / `strategy.get('boolean_strings', [])`.

Python strings are modelled as Lean `String`, JSON integer scores as `Int`.
-/

namespace HrPassiveCv

/-- One item of a search-oracle response: the `title`, `link` and `snippet`
fields read from `res.get('items', [])` in `search_google` (agent.py:166). -/
structure SearchItem where
  title : String
  link : String
  snippet : String
deriving DecidableEq

/-- One entry of the Search Aggregator's output, as built at agent.py:170:
a dict with keys `Name`, `Link`, `Snippet`. -/
structure RawCandidate where
  name : String
  link : String
  snippet : String
deriving DecidableEq

/-- A raw candidate after the scoring loop (agent.py:278-284) added the
keys `AI Score`, `Reason`, `Flag`. -/
structure ScoredCandidate where
  name : String
  link : String
  snippet : String
  score : Int
  reason : String
  flag : String
deriving DecidableEq

/-- The parsed JSON object returned by the scoring oracle in
`ai_score_candidate` (agent.py:156).  Each field is optional because the
module-level loop reads the keys with `ai_result.get('score', 0)`,
`ai_result.get('reason', 'N/A')` and `ai_result.get('flag', '')`. -/
structure ScoreResponse where
  score : Option Int
  reason : Option String
  flag : Option String
deriving DecidableEq

/-- The parsed JSON object returned by the strategy oracle in
`generate_search_strategy` (agent.py:125).  Both keys are optional because
the module-level flow reads them with `strategy.get('role_title', ...)` and
`strategy.get('boolean_strings', [])` (agent.py:264-265). -/
structure StrategyJson where
  role_title : Option String
  boolean_strings : Option (List String)
deriving DecidableEq

/-- Name extraction of agent.py:167-168 (identical in app.py:70-71):
`title_parts = item['title'].split("-")` followed by
`name = title_parts[0].strip() if len(title_parts) > 0 else "Unknown"`. -/
def extractName (title : String) : String :=
  let title_parts := title.splitOn "-"
  if title_parts.length > 0 then (title_parts.headD "").trim else "Unknown"

/-- Builds the aggregator entry appended at agent.py:170:
`{'Name': name, 'Link': item['link'], 'Snippet': item['snippet']}`. -/
def toCandidate (item : SearchItem) : RawCandidate :=
  { name := extractName item.title, link := item.link, snippet := item.snippet }

/-- The inner `for item in res.get('items', [])` loop of `search_google`
(agent.py:166-170), threading the accumulated `all_results` list: an item
is appended (at the end) unless some already-accepted entry has the same
link (`if not any(d['Link'] == item['link'] for d in all_results)`). -/
def processItems (acc : List RawCandidate) : List SearchItem → List RawCandidate
  | [] => acc
  | item :: rest =>
    if acc.any (fun d => d.link == item.link) then
      processItems acc rest
    else
      processItems (acc ++ [toCandidate item]) rest

/-- The Search Aggregator `search_google` of agent.py:160-172: one oracle
request per query, a failing request (`none`) is swallowed by
`except: pass` and contributes nothing, and the surviving items are folded
through `processItems` with the accumulator shared across all queries. -/
def search_google (oracle : String → Option (List SearchItem))
    (queries : List String) : List RawCandidate :=
  queries.foldl (fun acc q =>
    match oracle q with
    | none => acc
    | some items => processItems acc items) []

/-- The concatenated stream of items produced by the non-failing oracle
calls, in query order; a failing query contributes the empty list. -/
def flatItems (oracle : String → Option (List SearchItem))
    (queries : List String) : List SearchItem :=
  queries.foldl (fun acc q => acc ++ ((oracle q).getD [])) []

/-- Modelled from the spec's deduplication wording (spec §4.2): a result
whose link was already accepted is discarded, the first-seen occurrence is
kept, and output is in insertion order.  Used as the specification side of
the refinement proof for the aggregator. -/
def firstSeenDedup (seen : List String) : List RawCandidate → List RawCandidate
  | [] => []
  | c :: rest =>
    if seen.contains c.link then
      firstSeenDedup seen rest
    else
      c :: firstSeenDedup (c.link :: seen) rest

/-- The body of `ai_score_candidate` (agent.py:130-158): the oracle call and
JSON parse are attempted, and any failure is turned into the default
response `{"score": 0, "reason": "AI Error", "flag": "Unknown"}` by the
bare `except:` at agent.py:157-158. -/
def ai_score_candidate (oracle : String → Option ScoreResponse)
    (snippet : String) : ScoreResponse :=
  match oracle snippet with
  | some r => r
  | none => { score := some 0, reason := some "AI Error", flag := some "Unknown" }

/-- One iteration of the module-level scoring loop (agent.py:280-284): the
candidate keeps its `Name`, `Link` and `Snippet` fields and gains
`AI Score`, `Reason` and `Flag` read from the oracle response with the
defaults of `dict.get`. -/
def scoreCandidate (oracle : String → Option ScoreResponse)
    (cand : RawCandidate) : ScoredCandidate :=
  let r := ai_score_candidate oracle cand.snippet
  { name := cand.name, link := cand.link, snippet := cand.snippet,
    score := r.score.getD 0, reason := r.reason.getD "N/A", flag := r.flag.getD "" }

/-- The module-level scoring loop of agent.py:278-284: every raw candidate
is scored and appended to `scored_data` in order. -/
def scoringLoop (oracle : String → Option ScoreResponse)
    (cands : List RawCandidate) : List ScoredCandidate :=
  cands.map (scoreCandidate oracle)

/-- The threshold filter `df = df[df['AI Score'] > 10]` of agent.py:287,
with the threshold as a parameter (the source hard-codes 10). -/
def thresholdFilter (minScore : Int) (cands : List ScoredCandidate) :
    List ScoredCandidate :=
  cands.filter (fun c => minScore < c.score)

/-- Boolean comparator for the descending sort
`df.sort_values(by='AI Score', ascending=False)` (agent.py:180). -/
def scoreDescLe (a b : ScoredCandidate) : Bool :=
  b.score ≤ a.score

/-- The descending sort by score applied in `create_tab_and_fill`
(agent.py:180) and `send_summary_email` (agent.py:194). -/
def sortByScoreDesc (cands : List ScoredCandidate) : List ScoredCandidate :=
  cands.mergeSort scoreDescLe

/-- The RankedReport of the pipeline: the module-level threshold filter
(agent.py:287) followed by the descending sort (agent.py:180). -/
def rankReport (minScore : Int) (cands : List ScoredCandidate) :
    List ScoredCandidate :=
  sortByScoreDesc (thresholdFilter minScore cands)

/-- The body of `generate_search_strategy` (agent.py:101-128): the oracle
call and JSON parse are attempted and any exception yields `None`
(agent.py:126-128).  The argument is already the parse outcome. -/
def generate_search_strategy (oracle : Option StrategyJson) : Option StrategyJson :=
  match oracle with
  | some j => some j
  | none => none

/-- The module-level pipeline flow of agent.py:261-297 after the strategy
call: on `None` the `if strategy:` guard stops the run before any search;
otherwise the queries are read with `strategy.get('boolean_strings', [])`,
searched, and (when `raw_candidates` is non-empty) scored, filtered at
threshold 10 and sorted.  The first component is the report (`none` when
the run stops with no report), the second is the list of queries issued to
the search oracle, in order (the source issues exactly one search request
per query, agent.py:163-165). -/
def run_pipeline (strategyOracle : Option StrategyJson)
    (searchOracle : String → Option (List SearchItem))
    (scoreOracle : String → Option ScoreResponse) :
    Option (List ScoredCandidate) × List String :=
  match generate_search_strategy strategyOracle with
  | none => (none, [])
  | some strat =>
    let queries := strat.boolean_strings.getD []
    let raw := search_google searchOracle queries
    if raw.isEmpty then (none, queries)
    else (some (rankReport 10 (scoringLoop scoreOracle raw)), queries)

/-! ## Concrete inputs used by witnesses and counterexamples -/

/-- A raw candidate used as concrete input. -/
def candA : RawCandidate :=
  { name := "Alice Smith", link := "https://www.linkedin.com/in/alicesmith",
    snippet := "Alice's profile" }

/-- A well-formed scoring-oracle response carrying the out-of-range score 150. -/
def resp150 : ScoreResponse :=
  { score := some 150, reason := some "great fit", flag := some "Strong Match" }

/-- A scoring oracle whose parsed response carries score 150. -/
def oracle150 : String → Option ScoreResponse :=
  fun _ => some resp150

/-- A scoring oracle that always fails (exception or unparsable response). -/
def failOracle : String → Option ScoreResponse :=
  fun _ => none

/-- A scored candidate with score 95, above the threshold 10. -/
def cHigh : ScoredCandidate :=
  { name := "High", link := "https://example.com/high", snippet := "h",
    score := 95, reason := "strong", flag := "Strong Match" }

/-- A scored candidate with score 10, exactly at the threshold 10. -/
def cLow : ScoredCandidate :=
  { name := "Low", link := "https://example.com/low", snippet := "l",
    score := 10, reason := "weak", flag := "Role Mismatch" }

/-- A search result that the spec's denylist would discard: its link
contains the term "login" and lacks the profile-path segment "/in/". -/
def junkItem : SearchItem :=
  { title := "LinkedIn Login", link := "https://www.linkedin.com/login",
    snippet := "Log in to LinkedIn" }

/-- A search oracle returning only the denylisted result. -/
def junkOracle : String → Option (List SearchItem) :=
  fun _ => some [junkItem]

/-! ## Helper lemmas about the aggregator -/

/-- Processing a concatenated item stream equals processing the two parts
in sequence with the accumulator threaded through. -/
theorem processItems_append (xs ys : List SearchItem) :
    ∀ acc, processItems acc (xs ++ ys) = processItems (processItems acc xs) ys := by
  induction xs with
  | nil => intro acc; rfl
  | cons x xs ih =>
    intro acc
    simp only [List.cons_append, processItems]
    split
    · exact ih acc
    · exact ih (acc ++ [toCandidate x])

/-- Only membership in the seen set matters to `firstSeenDedup`, not its
order or multiplicity. -/
theorem firstSeenDedup_congr (cs : List RawCandidate) :
    ∀ s₁ s₂, (∀ l, l ∈ s₁ ↔ l ∈ s₂) → firstSeenDedup s₁ cs = firstSeenDedup s₂ cs := by
  induction cs with
  | nil => intro _ _ _; rfl
  | cons c rest ih =>
    intro s₁ s₂ h
    simp only [firstSeenDedup]
    have hc : s₁.contains c.link = s₂.contains c.link := by
      by_cases hm : c.link ∈ s₂
      · have hm₁ : c.link ∈ s₁ := (h c.link).mpr hm
        simp [List.contains, hm, hm₁]
      · have hm₁ : c.link ∉ s₁ := fun hx => hm ((h c.link).mp hx)
        simp [List.contains, hm, hm₁]
    rw [hc]
    split
    · exact ih s₁ s₂ h
    · rw [ih (c.link :: s₁) (c.link :: s₂) (by intro l; simp [h l])]

/-- The accumulator-threading item loop is the first-seen deduplication of
the stream, appended to the accumulator, with the accumulator's links as
the initial seen set. -/
theorem processItems_eq_firstSeenDedup (items : List SearchItem) :
    ∀ acc, processItems acc items =
      acc ++ firstSeenDedup (acc.map (fun d => d.link)) (items.map toCandidate) := by
  induction items with
  | nil => intro acc; simp [processItems, firstSeenDedup]
  | cons item rest ih =>
    intro acc
    simp only [processItems, List.map_cons, firstSeenDedup]
    have hlink : (toCandidate item).link = item.link := rfl
    by_cases hm : item.link ∈ acc.map (fun d => d.link)
    · have hany : acc.any (fun d => d.link == item.link) = true := by
        rcases List.mem_map.mp hm with ⟨d, hd, hdl⟩
        exact List.any_eq_true.mpr ⟨d, hd, by simp [hdl]⟩
      have hcont : (acc.map (fun d => d.link)).contains (toCandidate item).link = true := by
        simp [List.contains, hlink, hm]
      rw [hany, hcont]
      simp only [if_pos rfl]
      exact ih acc
    · have hany : acc.any (fun d => d.link == item.link) = false := by
        rw [Bool.eq_false_iff]
        intro hx
        rcases List.any_eq_true.mp hx with ⟨d, hd, hdl⟩
        exact hm (List.mem_map.mpr ⟨d, hd, by simpa using hdl⟩)
      have hcont : (acc.map (fun d => d.link)).contains (toCandidate item).link = false := by
        simp [List.contains, hlink, hm]
      rw [hany, hcont]
      simp only [if_neg Bool.false_ne_true]
      rw [ih (acc ++ [toCandidate item])]
      have hseen : ∀ l, l ∈ (acc ++ [toCandidate item]).map (fun d => d.link) ↔
          l ∈ (toCandidate item).link :: acc.map (fun d => d.link) := by
        intro l
        simp [or_comm]
      rw [firstSeenDedup_congr _ _ _ hseen]
      simp [hlink]

/-- Folding list-append from an arbitrary initial accumulator factors the
accumulator out in front. -/
theorem foldl_append_factor {β γ : Type} (g : β → List γ) :
    ∀ (qs : List β) (a : List γ),
      qs.foldl (fun acc q => acc ++ g q) a = a ++ qs.foldl (fun acc q => acc ++ g q) [] := by
  intro qs
  induction qs with
  | nil => intro a; simp
  | cons q qs ih =>
    intro a
    simp only [List.foldl_cons, List.nil_append]
    rw [ih (a ++ g q), ih (g q), List.append_assoc]

/-- Unfolding `flatItems` one query at a time. -/
theorem flatItems_cons (oracle : String → Option (List SearchItem))
    (q : String) (qs : List String) :
    flatItems oracle (q :: qs) = (oracle q).getD [] ++ flatItems oracle qs := by
  simp only [flatItems, List.foldl_cons, List.nil_append]
  exact foldl_append_factor _ qs _

/-- The Search Aggregator is the item loop run over the concatenated
stream of all non-failing oracle responses. -/
theorem search_google_eq_processItems (oracle : String → Option (List SearchItem)) :
    ∀ (queries : List String) (acc : List RawCandidate),
      queries.foldl (fun acc q =>
        match oracle q with
        | none => acc
        | some items => processItems acc items) acc =
      processItems acc (flatItems oracle queries) := by
  intro queries
  induction queries with
  | nil => intro acc; rfl
  | cons q qs ih =>
    intro acc
    simp only [List.foldl_cons]
    rw [flatItems_cons, processItems_append]
    cases h : oracle q with
    | none => exact ih acc
    | some items => exact ih (processItems acc items)

/-- First-seen deduplication produces pairwise-distinct links, none of
which was in the initial seen set. -/
theorem firstSeenDedup_links_nodup (cs : List RawCandidate) :
    ∀ seen, ((firstSeenDedup seen cs).map (fun c => c.link)).Nodup ∧
      ∀ l ∈ (firstSeenDedup seen cs).map (fun c => c.link), l ∉ seen := by
  induction cs with
  | nil => intro seen; simp [firstSeenDedup]
  | cons c rest ih =>
    intro seen
    simp only [firstSeenDedup]
    by_cases hm : c.link ∈ seen
    · rw [if_pos (by simp [List.contains, hm])]
      exact ih seen
    · rw [if_neg (by simp [List.contains, hm])]
      obtain ⟨hnd, hni⟩ := ih (c.link :: seen)
      refine ⟨?_, ?_⟩
      · simp only [List.map_cons, List.nodup_cons]
        exact ⟨fun hx => (hni _ hx) (List.mem_cons_self _ _), hnd⟩
      · intro l hl
        rcases List.mem_cons.mp hl with hl | hl
        · exact hl ▸ hm
        · exact fun hx => (hni l hl) (List.mem_cons_of_mem _ hx)

/-! ## Claim theorems -/

/-- C1: for every sequence of queries and every search-oracle behaviour,
no two entries of the Search Aggregator's output share a link, and the
output is exactly the first-seen deduplication (in insertion order, not
sorted) of the stream of results of all queries of the run: a result whose
link string-equals an already-accepted link is discarded and the
first-seen occurrence is kept. -/
theorem search_google_dedup_first_seen (oracle : String → Option (List SearchItem))
    (queries : List String) :
    ((search_google oracle queries).map (fun c => c.link)).Nodup ∧
    search_google oracle queries =
      firstSeenDedup [] ((flatItems oracle queries).map toCandidate) := by
  have he : search_google oracle queries =
      firstSeenDedup [] ((flatItems oracle queries).map toCandidate) := by
    unfold search_google
    rw [search_google_eq_processItems, processItems_eq_firstSeenDedup]
    simp
  refine ⟨?_, he⟩
  rw [he]
  exact (firstSeenDedup_links_nodup _ []).1

/-- C9: a search-oracle failure on an individual query is contained inside
the Search Aggregator: the failing query contributes zero results, all
remaining queries still run, and the output equals what the non-failing
queries alone produce. -/
theorem search_google_failure_contained (oracle : String → Option (List SearchItem))
    (queries : List String) :
    search_google oracle queries =
      search_google oracle (queries.filter (fun q => (oracle q).isSome)) := by
  have hflat : flatItems oracle queries =
      flatItems oracle (queries.filter (fun q => (oracle q).isSome)) := by
    induction queries with
    | nil => rfl
    | cons q qs ih =>
      rw [flatItems_cons]
      cases h : oracle q with
      | none => simpa [List.filter_cons, h] using ih
      | some items => simp [List.filter_cons, h, flatItems_cons, ih]
  unfold search_google
  rw [search_google_eq_processItems, search_google_eq_processItems, hflat]

/-- C4: every entry of a RankedReport has score strictly greater than the
threshold; a candidate whose score equals the threshold is filtered out. -/
theorem rankReport_entries_above_threshold (cands : List ScoredCandidate) (t : Int)
    (c : ScoredCandidate) (hc : c ∈ rankReport t cands) : t < c.score := by
  unfold rankReport sortByScoreDesc thresholdFilter at hc
  rw [List.mem_mergeSort] at hc
  exact of_decide_eq_true (List.mem_filter.mp hc).2

unseal List.merge List.mergeSort in
/-- Witness for C4: in the report built from cLow (score 10) and cHigh
(score 95) at threshold 10, the entry cHigh scores above 10. -/
theorem rankReport_entries_above_threshold_witness : (10 : Int) < cHigh.score :=
  rankReport_entries_above_threshold [cLow, cHigh] 10 cHigh (by decide)

/-- C5: the RankedReport is sorted by score descending — scores are
non-increasing by position. -/
theorem rankReport_scores_sorted_desc (t : Int) (cands : List ScoredCandidate) :
    (rankReport t cands).Pairwise (fun a b => b.score ≤ a.score) := by
  have h : (List.mergeSort (thresholdFilter t cands) scoreDescLe).Pairwise
      (fun a b => scoreDescLe a b = true) :=
    List.sorted_mergeSort
      (fun a b c h₁ h₂ => by
        simp only [scoreDescLe, decide_eq_true_eq] at h₁ h₂ ⊢
        omega)
      (fun a b => by
        simp only [scoreDescLe, Bool.or_eq_true, decide_eq_true_eq]
        omega)
      (thresholdFilter t cands)
  unfold rankReport sortByScoreDesc
  exact h.imp (fun hab => by simpa [scoreDescLe] using hab)

/-- C10: the scoring stage is a one-to-one map over the raw candidates:
same length, same order, and each output keeps its input's Name, Link and
Snippet fields. -/
theorem scoringLoop_frame (oracle : String → Option ScoreResponse)
    (cands : List RawCandidate) :
    (scoringLoop oracle cands).length = cands.length ∧
    List.Forall₂ (fun r s => s.name = r.name ∧ s.link = r.link ∧ s.snippet = r.snippet)
      cands (scoringLoop oracle cands) := by
  refine ⟨by simp [scoringLoop], ?_⟩
  induction cands with
  | nil => exact List.Forall₂.nil
  | cons c cs ih => exact List.Forall₂.cons ⟨rfl, rfl, rfl⟩ ih

/-- C8: when strategy generation fails the pipeline produces no report and
issues no search-oracle request at all, whatever the search and scoring
oracles would have answered — the run halts before any search call. -/
theorem pipeline_halts_on_strategy_failure
    (searchOracle : String → Option (List SearchItem))
    (scoreOracle : String → Option ScoreResponse) :
    run_pipeline none searchOracle scoreOracle = (none, []) := rfl

/-- C2 counterexample: with a well-formed oracle response carrying score
150, the scored list contains an entry whose score is outside [0,100] —
nothing clamps or rejects it. -/
theorem scoringLoop_out_of_range_not_contained :
    ¬ (∀ c ∈ scoringLoop oracle150 [candA], 0 ≤ c.score ∧ c.score ≤ 100) := by
  decide

/-- C2 amended: the Candidate Scorer propagates the score of a parsed
oracle response unchanged into the ScoredCandidate — no clamping and no
rejection happens, even for values outside [0,100]. -/
theorem scoreCandidate_propagates_unclamped (oracle : String → Option ScoreResponse)
    (cand : RawCandidate) (r : ScoreResponse) (s : Int)
    (h₁ : oracle cand.snippet = some r) (h₂ : r.score = some s) :
    (scoreCandidate oracle cand).score = s := by
  simp [scoreCandidate, ai_score_candidate, h₁, h₂]

/-- Witness for the amended C2: the concrete response with score 150 is
propagated as-is. -/
theorem scoreCandidate_propagates_unclamped_witness :
    (scoreCandidate oracle150 candA).score = 150 :=
  scoreCandidate_propagates_unclamped oracle150 candA resp150 150 rfl rfl

/-- C3 counterexample: on a failing scoring oracle the default reason is
the string "AI Error", not "Error" as the claim states. -/
theorem scoreCandidate_failure_reason_not_error :
    (scoreCandidate failOracle candA).reason = "AI Error" ∧
    (scoreCandidate failOracle candA).reason ≠ "Error" := by
  decide

/-- C3 amended: when the scoring oracle fails on a candidate, the scorer
returns the default ScoredCandidate with score 0, reason "AI Error" and
flag "Unknown"; that candidate appears in the pre-threshold scored list
and is absent from every RankedReport with threshold at least 0. -/
theorem scoreCandidate_failure_default (oracle : String → Option ScoreResponse)
    (cands : List RawCandidate) (c : RawCandidate) (t : Int)
    (hmem : c ∈ cands) (hfail : oracle c.snippet = none) (ht : 0 ≤ t) :
    (scoreCandidate oracle c).score = 0 ∧
    (scoreCandidate oracle c).reason = "AI Error" ∧
    (scoreCandidate oracle c).flag = "Unknown" ∧
    scoreCandidate oracle c ∈ scoringLoop oracle cands ∧
    scoreCandidate oracle c ∉ rankReport t (scoringLoop oracle cands) := by
  have hs : (scoreCandidate oracle c).score = 0 := by
    simp [scoreCandidate, ai_score_candidate, hfail]
  have hmm : scoreCandidate oracle c ∈ scoringLoop oracle cands := by
    unfold scoringLoop
    exact List.mem_map.mpr ⟨c, hmem, rfl⟩
  refine ⟨hs, by simp [scoreCandidate, ai_score_candidate, hfail],
    by simp [scoreCandidate, ai_score_candidate, hfail], hmm, ?_⟩
  intro hin
  unfold rankReport sortByScoreDesc thresholdFilter at hin
  rw [List.mem_mergeSort] at hin
  have hgt := of_decide_eq_true (List.mem_filter.mp hin).2
  rw [hs] at hgt
  omega

/-- Witness for the amended C3 at the failing oracle, the single-candidate
list and threshold 0. -/
theorem scoreCandidate_failure_default_witness :
    (scoreCandidate failOracle candA).score = 0 ∧
    (scoreCandidate failOracle candA).reason = "AI Error" ∧
    (scoreCandidate failOracle candA).flag = "Unknown" ∧
    scoreCandidate failOracle candA ∈ scoringLoop failOracle [candA] ∧
    scoreCandidate failOracle candA ∉ rankReport 0 (scoringLoop failOracle [candA]) :=
  scoreCandidate_failure_default failOracle [candA] candA 0
    (List.mem_singleton.mpr rfl) rfl (le_refl 0)

unseal String.splitOnAux Substring.takeWhileAux Substring.takeRightWhileAux in
/-- C6 counterexample: the pipe character is not a delimiter for name
extraction, and empty extraction does not fall back to "Unknown": the
title "Jane Doe | LinkedIn" keeps its pipe part, and the empty title
yields the empty name. -/
theorem extractName_pipe_not_delimiter :
    extractName "Jane Doe | LinkedIn" = "Jane Doe | LinkedIn" ∧
    extractName "Jane Doe | LinkedIn" ≠ "Jane Doe" ∧
    extractName "" = "" ∧
    extractName "" ≠ "Unknown" := by
  have h1 : extractName "Jane Doe | LinkedIn" = "Jane Doe | LinkedIn" := rfl
  have h2 : extractName "" = "" := rfl
  refine ⟨h1, ?_, h2, ?_⟩
  · rw [h1]; decide
  · rw [h2]; decide

unseal String.splitOnAux Substring.takeWhileAux Substring.takeRightWhileAux in
/-- C6 amended: the display name is the text before the first hyphen of
the title (the hyphen is the only delimiter; the pipe is not), trimmed of
whitespace; when that text is empty the name is the empty string and no
"Unknown" placeholder is substituted.  The title
"Jane Doe - Senior Engineer | LinkedIn" yields "Jane Doe", and the split
happens at the first hyphen even inside a word. -/
theorem extractName_first_hyphen_trimmed :
    extractName "Jane Doe - Senior Engineer | LinkedIn" = "Jane Doe" ∧
    extractName "   Bob Jones   " = "Bob Jones" ∧
    extractName "- Senior Engineer" = "" ∧
    extractName "Ana-Maria Lopez - GitHub" = "Ana" :=
  ⟨rfl, rfl, rfl, rfl⟩

unseal String.splitOnAux Substring.takeWhileAux Substring.takeRightWhileAux in
/-- C7 counterexample: a result whose link contains the denylist term
"login" and lacks the profile-path segment "/in/" is still accepted by the
aggregator; the second and third conjuncts exhibit those two facts about
the link string. -/
theorem search_google_accepts_denylisted :
    search_google junkOracle ["site:linkedin.com/in/ engineer"] =
      [{ name := "LinkedIn Login", link := "https://www.linkedin.com/login",
         snippet := "Log in to LinkedIn" }] ∧
    ("https://www.linkedin.com/login".splitOn "login").length = 2 ∧
    ("https://www.linkedin.com/login".splitOn "/in/").length = 1 :=
  ⟨rfl, rfl, rfl⟩

/-- C7 amended: the Search Aggregator applies no shape filtering at all —
any single oracle result is accepted verbatim (after name extraction),
whatever its title or link contain; only link deduplication discards
results. -/
theorem search_google_no_shape_filter (oracle : String → Option (List SearchItem))
    (q : String) (item : SearchItem) (h : oracle q = some [item]) :
    search_google oracle [q] = [toCandidate item] := by
  simp [search_google, h, processItems]

/-- Witness for the amended C7 at the denylisted concrete result. -/
theorem search_google_no_shape_filter_witness :
    search_google junkOracle ["site:linkedin.com/in/ engineer"] = [toCandidate junkItem] :=
  search_google_no_shape_filter junkOracle "site:linkedin.com/in/ engineer" junkItem rfl

end HrPassiveCv
